import Mathlib

/-!
Verification development for the neurommind-mapper repository.

The Python source (src/utils.py) is shallowly embedded: strings are
modelled as `List Char` (via `String.data`), Python string methods
(`strip`, `replace`, `split`, `startswith`, `endswith`, `lower`,
substring tests) are translated to executable Lean functions, and the
four functions under scrutiny — `validate_and_fix_mermaid`,
`normalize_url`, `analyze_diagram_complexity`, `scrape_text` /
`generate_mindmap_with_claude` — are translated line by line.
Python float arithmetic in the complexity estimator is modelled with
exact rationals; the claims about it concern only guardedness and
clamping, which are insensitive to rounding.
-/

namespace NeuroMapper

abbrev Chars := List Char

/-- Python str.strip() whitespace set (ASCII). -/
def pyIsSpace (c : Char) : Bool :=
  c = ' ' || c = '\t' || c = '\n' || c = '\r' || c = '\x0b' || c = '\x0c'

/-- Drop matching characters from the right end of a list. -/
def dropTrailing (p : Char → Bool) (l : Chars) : Chars :=
  (l.reverse.dropWhile p).reverse

/-- Python str.strip(): remove leading and trailing whitespace. -/
def pyStrip (l : Chars) : Chars :=
  dropTrailing pyIsSpace (l.dropWhile pyIsSpace)

/-- Character class for Python str.strip with the two parenthesis characters. -/
def isParenChar (c : Char) : Bool := c = '(' || c = ')'

/-- Python line.strip with the two parenthesis characters as the strip set. -/
def pyStripParens (l : Chars) : Chars :=
  dropTrailing isParenChar (l.dropWhile isParenChar)

/-- Python str.lower() on ASCII text. -/
def lowerChars (l : Chars) : Chars := l.map Char.toLower

/-- Python line.endswith with a single character. -/
def endsWithChar (c : Char) (l : Chars) : Bool :=
  match l.getLast? with
  | some d => d = c
  | none => false

/-- Python substring containment (pat in s). -/
def containsSub (pat : Chars) : Chars → Bool
  | [] => pat.isPrefixOf []
  | c :: rest => pat.isPrefixOf (c :: rest) || containsSub pat rest

/-- Fuel-driven helper for `pyReplace`; fuel bounds the number of scan steps. -/
def pyReplaceAux (pat rep : Chars) : Nat → Chars → Chars
  | 0, s => s
  | fuel + 1, s =>
    match s with
    | [] => []
    | c :: rest =>
      if pat ≠ [] ∧ pat.isPrefixOf (c :: rest) then
        rep ++ pyReplaceAux pat rep fuel ((c :: rest).drop pat.length)
      else
        c :: pyReplaceAux pat rep fuel rest

/-- Python str.replace: replace every non-overlapping occurrence, scanning
left to right and never rescanning the replacement text. -/
def pyReplace (s pat rep : Chars) : Chars :=
  pyReplaceAux pat rep s.length s

/-- Python str.split with a single newline separator. -/
def splitLines : Chars → List Chars
  | [] => [[]]
  | c :: rest =>
    if c = '\n' then [] :: splitLines rest
    else
      match splitLines rest with
      | [] => [[c]]
      | l :: ls => (c :: l) :: ls

/-- Join lines back with a newline, as Python chr(10).join does. -/
def joinLines : List Chars → Chars
  | [] => []
  | [l] => l
  | l :: ls => l ++ '\n' :: joinLines ls

/-! ## normalize_url (src/utils.py lines 377-403) -/

/-- Core of normalize_url on character lists, translated from the source:
strip whitespace, return the empty string as is, return schemed URLs as is,
and prefix https to everything else (the www branch and the final branch
of the Python code return the same expression and are kept separate). -/
def normalizeCore (url : Chars) : Chars :=
  let u := pyStrip url
  if u.isEmpty then u
  else if "http://".data.isPrefixOf u || "https://".data.isPrefixOf u then u
  else if "www.".data.isPrefixOf u then "https://".data ++ u
  else "https://".data ++ u

/-- normalize_url from src/utils.py. -/
def normalize_url (s : String) : String := ⟨normalizeCore s.data⟩

/-! ## Basic lemmas about the string primitives -/

theorem dropWhile_suffix_exists (p : Char → Bool) (l : Chars) :
    ∃ pre, l = pre ++ l.dropWhile p := by
  induction l with
  | nil => exact ⟨[], rfl⟩
  | cons c rest ih =>
    by_cases h : p c = true
    · obtain ⟨pre, hp⟩ := ih
      exact ⟨c :: pre, by rw [List.dropWhile_cons, if_pos h, List.cons_append, ← hp]⟩
    · exact ⟨[], by rw [List.dropWhile_cons, if_neg h]; rfl⟩

theorem head_dropWhile_false (p : Char → Bool) (l : Chars) (c : Char)
    (h : (l.dropWhile p).head? = some c) : p c = false := by
  induction l with
  | nil => simp at h
  | cons d rest ih =>
    rw [List.dropWhile_cons] at h
    by_cases hd : p d = true
    · rw [if_pos hd] at h
      exact ih h
    · rw [if_neg hd] at h
      simp only [List.head?_cons, Option.some.injEq] at h
      subst h
      simpa using hd

theorem dropTrailing_reverse (p : Char → Bool) (l : Chars) :
    (dropTrailing p l).reverse = l.reverse.dropWhile p := by
  simp [dropTrailing]

theorem dropTrailing_prefix_exists (p : Char → Bool) (l : Chars) :
    ∃ suf, l = dropTrailing p l ++ suf := by
  obtain ⟨pre, hp⟩ := dropWhile_suffix_exists p l.reverse
  refine ⟨pre.reverse, ?_⟩
  have h2 := congrArg List.reverse hp
  simp only [List.reverse_reverse, List.reverse_append] at h2
  rw [dropTrailing]
  exact h2

theorem pyStrip_reverse_head (l : Chars) (c : Char)
    (h : (pyStrip l).reverse.head? = some c) : pyIsSpace c = false := by
  rw [pyStrip, dropTrailing_reverse] at h
  exact head_dropWhile_false _ _ _ h

theorem pyStrip_head (l : Chars) (c : Char)
    (h : (pyStrip l).head? = some c) : pyIsSpace c = false := by
  obtain ⟨suf, hsuf⟩ := dropTrailing_prefix_exists pyIsSpace (l.dropWhile pyIsSpace)
  have hd : pyStrip l = dropTrailing pyIsSpace (l.dropWhile pyIsSpace) := rfl
  rcases hdt : dropTrailing pyIsSpace (l.dropWhile pyIsSpace) with _ | ⟨d0, t0⟩
  · rw [hd, hdt] at h
    simp at h
  · rw [hd, hdt] at h
    simp only [List.head?_cons, Option.some.injEq] at h
    subst h
    have hh : (l.dropWhile pyIsSpace).head? = some d0 := by
      rw [hsuf, hdt]
      rfl
    exact head_dropWhile_false pyIsSpace l d0 hh

theorem dropTrailing_eq_self (p : Char → Bool) (l : Chars)
    (h : ∀ c, l.reverse.head? = some c → p c = false) : dropTrailing p l = l := by
  cases hr : l.reverse with
  | nil =>
    have hl : l = [] := by simpa using congrArg List.reverse hr
    subst hl
    rfl
  | cons c t =>
    have hc : p c = false := h c (by rw [hr]; rfl)
    have h2 : dropTrailing p l = ((c :: t).dropWhile p).reverse := by
      rw [dropTrailing, hr]
    have h3 : l = t.reverse ++ [c] := by simpa using congrArg List.reverse hr
    rw [h2, List.dropWhile_cons, if_neg (by simp [hc]), List.reverse_cons]
    exact h3.symm

theorem pyStrip_eq_self (l : Chars)
    (h1 : ∀ c, l.head? = some c → pyIsSpace c = false)
    (h2 : ∀ c, l.reverse.head? = some c → pyIsSpace c = false) :
    pyStrip l = l := by
  have hdw : l.dropWhile pyIsSpace = l := by
    cases l with
    | nil => rfl
    | cons c t =>
      rw [List.dropWhile_cons, if_neg (by simp [h1 c rfl])]
  rw [pyStrip, hdw]
  exact dropTrailing_eq_self _ _ h2

theorem pyStrip_idem (l : Chars) : pyStrip (pyStrip l) = pyStrip l := by
  refine pyStrip_eq_self _ ?_ ?_
  · intro d hd
    exact pyStrip_head l d hd
  · intro d hd
    exact pyStrip_reverse_head l d hd

theorem all_space_strip (l : Chars) (h : ∀ c ∈ l, pyIsSpace c = true) :
    pyStrip l = [] := by
  have hdw : l.dropWhile pyIsSpace = [] := List.dropWhile_eq_nil_iff.2 h
  rw [pyStrip, hdw]
  rfl

theorem isPrefixOf_append (p t : Chars) : p.isPrefixOf (p ++ t) = true := by
  rw [List.isPrefixOf_iff_prefix]
  exact List.prefix_append p t

/-! ## normalize_url: branch characterization and the three URL claims -/

theorem normalizeCore_eq (u : Chars) :
    normalizeCore u =
      if (pyStrip u).isEmpty = true then pyStrip u
      else if ("http://".data.isPrefixOf (pyStrip u) ||
          "https://".data.isPrefixOf (pyStrip u)) = true then pyStrip u
      else "https://".data ++ pyStrip u := by
  simp only [normalizeCore]
  rw [ite_self]

theorem normalizeCore_stripped (u : Chars) :
    pyStrip (normalizeCore u) = normalizeCore u := by
  rw [normalizeCore_eq]
  by_cases he : (pyStrip u).isEmpty = true
  · rw [if_pos he]
    have h0 : pyStrip u = [] := by simpa using he
    rw [h0]
    rfl
  · rw [if_neg he]
    by_cases hsch : ("http://".data.isPrefixOf (pyStrip u) ||
        "https://".data.isPrefixOf (pyStrip u)) = true
    · rw [if_pos hsch]
      exact pyStrip_idem u
    · rw [if_neg hsch]
      have hne : pyStrip u ≠ [] := by simpa using he
      refine pyStrip_eq_self _ ?_ ?_
      · intro c hc
        have h5 : ("https://".data ++ pyStrip u : Chars) =
            'h' :: ("ttps://".data ++ pyStrip u) := rfl
        rw [h5] at hc
        simp only [List.head?_cons, Option.some.injEq] at hc
        subst hc
        rfl
      · intro c hc
        rw [List.reverse_append] at hc
        cases hr : (pyStrip u).reverse with
        | nil => exact absurd (by simpa using congrArg List.reverse hr) hne
        | cons d t =>
          rw [hr] at hc
          simp only [List.cons_append, List.head?_cons, Option.some.injEq] at hc
          subst hc
          exact pyStrip_reverse_head u _ (by rw [hr]; rfl)

theorem normalizeCore_idem (u : Chars) :
    normalizeCore (normalizeCore u) = normalizeCore u := by
  have hstr : pyStrip (normalizeCore u) = normalizeCore u := normalizeCore_stripped u
  rw [normalizeCore_eq (normalizeCore u), hstr]
  by_cases he : (normalizeCore u).isEmpty = true
  · rw [if_pos he]
  · rw [if_neg he]
    by_cases hsch : ("http://".data.isPrefixOf (normalizeCore u) ||
        "https://".data.isPrefixOf (normalizeCore u)) = true
    · rw [if_pos hsch]
    · exfalso
      rw [normalizeCore_eq] at hsch
      by_cases h1 : (pyStrip u).isEmpty = true
      · rw [normalizeCore_eq, if_pos h1] at he
        exact he h1
      · by_cases h2 : ("http://".data.isPrefixOf (pyStrip u) ||
            "https://".data.isPrefixOf (pyStrip u)) = true
        · rw [if_neg h1, if_pos h2] at hsch
          exact hsch h2
        · rw [if_neg h1, if_neg h2] at hsch
          exact hsch (by rw [isPrefixOf_append]; simp)

/-- C7: normalize_url is idempotent on every input string. -/
theorem c7_normalize_url_idempotent (s : String) :
    normalize_url (normalize_url s) = normalize_url s := by
  show (⟨normalizeCore (normalizeCore s.data)⟩ : String) = ⟨normalizeCore s.data⟩
  rw [normalizeCore_idem]

/-- C6 counterexample: the single-space input is nonempty, is not schemed and
does not start with www., yet normalize_url returns the empty string rather
than https:// followed by the input: the source strips whitespace first, so
the claim as stated fails on whitespace-padded inputs. -/
theorem c6_counterexample :
    (" " : String) ≠ "" ∧
    "http://".data.isPrefixOf " ".data = false ∧
    "https://".data.isPrefixOf " ".data = false ∧
    "www.".data.isPrefixOf " ".data = false ∧
    normalize_url " " = "" ∧
    normalize_url " " ≠ "https://" ++ " " := by
  refine ⟨by decide, by decide, by decide, by decide, by decide, by decide⟩

/-- C6 amended: for every input whose stripped form is nonempty, not already
schemed and not starting with www., normalize_url returns https:// followed
by the stripped input. -/
theorem c6_normalize_url_amended (s : String)
    (hne : pyStrip s.data ≠ [])
    (h1 : "http://".data.isPrefixOf (pyStrip s.data) = false)
    (h2 : "https://".data.isPrefixOf (pyStrip s.data) = false)
    (_h3 : "www.".data.isPrefixOf (pyStrip s.data) = false) :
    (normalize_url s).data = "https://".data ++ pyStrip s.data := by
  show normalizeCore s.data = _
  rw [normalizeCore_eq]
  have hei : (pyStrip s.data).isEmpty = false := by simpa using hne
  rw [hei]
  simp only [Bool.false_eq_true, if_false, h1, h2, Bool.or_false]

theorem c6_witness :
    pyStrip "example.com".data ≠ [] ∧
    (normalize_url "example.com").data = "https://".data ++ pyStrip "example.com".data :=
  ⟨by decide, c6_normalize_url_amended "example.com" (by decide) (by decide)
    (by decide) (by decide)⟩

/-- C10: whitespace-only input (including empty) yields the empty string with
no https prefix added; more generally the output of normalize_url never has
leading or trailing whitespace, since the input is stripped before any
scheme check. -/
theorem c10_normalize_url_whitespace (s : String) :
    (s.data.all pyIsSpace = true → normalize_url s = "") ∧
    pyStrip (normalize_url s).data = (normalize_url s).data := by
  constructor
  · intro h
    have hstrip : pyStrip s.data = [] :=
      all_space_strip _ (by simpa [List.all_eq_true] using h)
    show (⟨normalizeCore s.data⟩ : String) = ""
    rw [normalizeCore_eq]
    have hei : (pyStrip s.data).isEmpty = true := by rw [hstrip]; rfl
    rw [if_pos hei, hstrip]
  · show pyStrip (normalizeCore s.data) = normalizeCore s.data
    exact normalizeCore_stripped s.data

theorem c10_witness :
    normalize_url "  " = "" ∧
    pyStrip (normalize_url "  ").data = (normalize_url "  ").data :=
  ⟨(c10_normalize_url_whitespace "  ").1 (by decide),
   (c10_normalize_url_whitespace "  ").2⟩

/-! ## validate_and_fix_mermaid (src/utils.py lines 303-375) -/

/-- The fixed keyword list from the source used to classify main branches. -/
def main_branch_keywords : List Chars :=
  ["marketing".data, "strategy".data, "content".data, "advertising".data,
   "automation".data, "analytics".data, "creation".data, "search".data,
   "social".data]

/-- State of the repair loop: accumulated output lines, whether a root was
established, and the current branch (None before any main branch). -/
structure FixState where
  fixed_lines : List Chars
  root_found : Bool
  current_branch : Option Chars
  deriving DecidableEq

/-- A line of the repaired output that establishes the root node. -/
def isRootLine (l : Chars) : Bool := "  root(".data.isPrefixOf l

/-- A line of the repaired output classified as a top-level branch: the
startswith test from the Python list comprehension. -/
def isBranchLine (l : Chars) : Bool := "    (".data.isPrefixOf l

/-- Python len of the list comprehension counting emitted main-branch lines,
those starting with four spaces and an opening parenthesis. -/
def branchCount (ls : List Chars) : Nat :=
  (ls.filter isBranchLine).length

/-- Python any with keyword containment over the lowercased content. -/
def isMainBranch (content : Chars) : Bool :=
  main_branch_keywords.any (fun k => containsSub k (lowerChars content))

/-- Python truthiness of the current_branch variable (None and the empty
string are falsy). -/
def truthyOpt : Option Chars → Bool
  | none => false
  | some s => !s.isEmpty

/-- One iteration of the repair loop over a raw line, translated clause by
clause from the source. -/
def fixStep (st : FixState) (rawLine : Chars) : FixState :=
  let line := pyStrip rawLine
  if line.isEmpty || line == "mindmap".data then st
  else if line == "(```)".data || containsSub "```".data line then st
  else if !st.root_found && "(".data.isPrefixOf line && endsWithChar ')' line then
    { fixed_lines := st.fixed_lines ++ ["  root(".data ++ pyStripParens line ++ ")".data],
      root_found := true,
      current_branch := st.current_branch }
  else if "::icon(".data.isPrefixOf line then
    if truthyOpt st.current_branch then
      { st with fixed_lines := st.fixed_lines ++ ["      ".data ++ line] }
    else st
  else if "(".data.isPrefixOf line && endsWithChar ')' line then
    let content := pyStripParens line
    if isMainBranch content && decide (branchCount st.fixed_lines < 4) then
      { fixed_lines := st.fixed_lines ++ ["    (".data ++ content ++ ")".data],
        root_found := st.root_found,
        current_branch := some content }
    else
      { st with fixed_lines := st.fixed_lines ++ ["      (".data ++ content ++ ")".data] }
  else st

/-- The markdown fence removal and outer strip applied before splitting. -/
def preprocessed (input : Chars) : Chars :=
  pyStrip (pyReplace (pyReplace input "```mermaid".data []) "```".data [])

/-- The line list the repair loop iterates over (the source strips again
before splitting). -/
def repairLines (input : Chars) : List Chars :=
  splitLines (pyStrip (preprocessed input))

/-- The initial loop state: output seeded with the declaration line, no root
found, no current branch. -/
def initState : FixState :=
  ⟨["mindmap".data], false, none⟩

/-- The loop state after processing all lines, starting from the mindmap
declaration line. -/
def fixFinal (input : Chars) : FixState :=
  (repairLines input).foldl fixStep initState

/-- The fixed fallback skeleton returned when fewer than 3 lines survive. -/
def mermaid_fallback : Chars :=
  ("mindmap\n  root(Article Content)\n    (Main Topics)\n      (Key Point 1)\n      (Key Point 2)\n    (Details)\n      (Important Info)\n      (Supporting Facts)").data

/-- Core of validate_and_fix_mermaid on character lists. -/
def validateCore (input : Chars) : Chars :=
  let final := fixFinal input
  if final.fixed_lines.length < 3 then mermaid_fallback
  else joinLines final.fixed_lines

/-- validate_and_fix_mermaid from src/utils.py. -/
def validate_and_fix_mermaid (s : String) : String := ⟨validateCore s.data⟩

/-- A stripped line that begins with an opening parenthesis and ends with a
closing one: the claim wording for a root-eligible line. -/
def claimRootEligible (l : Chars) : Bool :=
  "(".data.isPrefixOf (pyStrip l) && endsWithChar ')' (pyStrip l)

/-- A line the repair loop actually emits a node for: parenthesized after
stripping and free of fence markers. -/
def parenOk (l : Chars) : Bool :=
  "(".data.isPrefixOf (pyStrip l) && endsWithChar ')' (pyStrip l) &&
    !containsSub "```".data (pyStrip l)

/-! ## Lemmas about splitLines and joinLines -/

theorem splitLines_ne_nil (s : Chars) : splitLines s ≠ [] := by
  cases s with
  | nil => simp [splitLines]
  | cons c rest =>
    rw [splitLines]
    by_cases hc : c = '\n'
    · rw [if_pos hc]
      simp
    · rw [if_neg hc]
      rcases h : splitLines rest with _ | ⟨m, ms⟩ <;> simp

theorem splitLines_newline (rest : Chars) :
    splitLines ('\n' :: rest) = [] :: splitLines rest := by
  rw [splitLines, if_pos rfl]

theorem splitLines_cons_eq (c : Char) (rest : Chars) (m : Chars) (ms : List Chars)
    (hc : c ≠ '\n') (h : splitLines rest = m :: ms) :
    splitLines (c :: rest) = (c :: m) :: ms := by
  rw [splitLines, if_neg hc, h]

theorem splitLines_no_newline (s : Chars) : ∀ l ∈ splitLines s, '\n' ∉ l := by
  induction s with
  | nil =>
    intro l hl
    simp only [splitLines, List.mem_singleton] at hl
    subst hl
    simp
  | cons c rest ih =>
    intro l hl
    by_cases hc : c = '\n'
    · subst hc
      rw [splitLines_newline] at hl
      rcases List.mem_cons.1 hl with h | h
      · subst h
        simp
      · exact ih l h
    · rcases hsp : splitLines rest with _ | ⟨m, ms⟩
      · exact absurd hsp (splitLines_ne_nil rest)
      · rw [splitLines_cons_eq c rest m ms hc hsp] at hl
        rcases List.mem_cons.1 hl with h | h
        · subst h
          intro hmem
          rcases List.mem_cons.1 hmem with h2 | h2
          · exact hc h2.symm
          · exact ih m (by rw [hsp]; exact List.mem_cons_self m ms) h2
        · exact ih l (by rw [hsp]; exact List.mem_cons_of_mem m h)

theorem splitLines_single (l : Chars) (h : '\n' ∉ l) : splitLines l = [l] := by
  induction l with
  | nil => rfl
  | cons c t ih =>
    have hc : c ≠ '\n' := fun hcc => h (by rw [hcc]; exact List.mem_cons_self _ _)
    have ht : '\n' ∉ t := fun hm => h (List.mem_cons_of_mem c hm)
    exact splitLines_cons_eq c t t [] hc (ih ht)

theorem splitLines_append (l t : Chars) (h : '\n' ∉ l) :
    splitLines (l ++ '\n' :: t) = l :: splitLines t := by
  induction l with
  | nil => simpa using splitLines_newline t
  | cons c m ih =>
    have hc : c ≠ '\n' := fun hcc => h (by rw [hcc]; exact List.mem_cons_self _ _)
    have hm : '\n' ∉ m := fun hmem => h (List.mem_cons_of_mem c hmem)
    exact splitLines_cons_eq c (m ++ '\n' :: t) m (splitLines t) hc (ih hm)

theorem joinLines_cons (l : Chars) (ls : List Chars) (h : ls ≠ []) :
    joinLines (l :: ls) = l ++ '\n' :: joinLines ls := by
  cases ls with
  | nil => exact absurd rfl h
  | cons m ms => rfl

theorem splitLines_joinLines (ls : List Chars) (hne : ls ≠ [])
    (h : ∀ l ∈ ls, '\n' ∉ l) : splitLines (joinLines ls) = ls := by
  induction ls with
  | nil => exact absurd rfl hne
  | cons l ms ih =>
    cases ms with
    | nil =>
      show splitLines (joinLines [l]) = [l]
      rw [show joinLines [l] = l from rfl]
      exact splitLines_single l (h l (List.mem_cons_self _ _))
    | cons m ms2 =>
      rw [joinLines_cons l (m :: ms2) (by simp),
        splitLines_append l _ (h l (List.mem_cons_self _ _)),
        ih (by simp) (fun x hx => h x (List.mem_cons_of_mem _ hx))]

/-! ## Membership lemmas for the strip operations -/

theorem mem_of_dropWhile {c : Char} {p : Char → Bool} {l : Chars}
    (h : c ∈ l.dropWhile p) : c ∈ l :=
  (List.dropWhile_sublist p).subset h

theorem mem_of_dropTrailing {c : Char} {p : Char → Bool} {l : Chars}
    (h : c ∈ dropTrailing p l) : c ∈ l := by
  rw [dropTrailing, List.mem_reverse] at h
  exact List.mem_reverse.1 (mem_of_dropWhile h)

theorem mem_of_pyStrip {c : Char} {l : Chars} (h : c ∈ pyStrip l) : c ∈ l :=
  mem_of_dropWhile (mem_of_dropTrailing h)

theorem mem_of_pyStripParens {c : Char} {l : Chars}
    (h : c ∈ pyStripParens l) : c ∈ l :=
  mem_of_dropWhile (mem_of_dropTrailing h)

/-! ## Classification of the lines emitted by the repair loop -/

theorem not_branch_root (t s : Chars) :
    isBranchLine (("  root(".data ++ t) ++ s) = false := by
  show List.isPrefixOf _ _ = false
  rw [show "    (".data = ' ' :: ' ' :: ' ' :: ' ' :: ['('] from rfl,
    show ((("  root(".data ++ t) ++ s : Chars)) =
      ' ' :: ' ' :: 'r' :: (("oot(".data ++ t) ++ s) from rfl]
  simp [List.isPrefixOf, show (' ' == 'r') = false from rfl]

theorem not_branch_six (t : Chars) : isBranchLine ("      ".data ++ t) = false := by
  show List.isPrefixOf _ _ = false
  rw [show "    (".data = ' ' :: ' ' :: ' ' :: ' ' :: ['('] from rfl,
    show ("      ".data ++ t : Chars) =
      ' ' :: ' ' :: ' ' :: ' ' :: ' ' :: (" ".data ++ t) from rfl]
  simp [List.isPrefixOf, show ('(' == ' ') = false from rfl]

theorem not_branch_sub (t s : Chars) :
    isBranchLine (("      (".data ++ t) ++ s) = false := by
  have h : (("      (".data ++ t) ++ s : Chars) =
      "      ".data ++ (("(".data ++ t) ++ s) := rfl
  rw [h]
  exact not_branch_six _

theorem branch_is_branch (t s : Chars) :
    isBranchLine (("    (".data ++ t) ++ s) = true := by
  show List.isPrefixOf _ _ = true
  rw [List.append_assoc]
  exact isPrefixOf_append _ _

theorem not_branch_mindmap : isBranchLine "mindmap".data = false := by decide

theorem root_is_root (t s : Chars) :
    isRootLine (("  root(".data ++ t) ++ s) = true := by
  show List.isPrefixOf _ _ = true
  rw [List.append_assoc]
  exact isPrefixOf_append _ _

theorem not_root_branch (t s : Chars) :
    isRootLine (("    (".data ++ t) ++ s) = false := by
  show List.isPrefixOf _ _ = false
  rw [show "  root(".data = ' ' :: ' ' :: 'r' :: 'o' :: 'o' :: 't' :: ['('] from rfl,
    show ((("    (".data ++ t) ++ s : Chars)) =
      ' ' :: ' ' :: ' ' :: ((" (".data ++ t) ++ s) from rfl]
  simp [List.isPrefixOf, show ('r' == ' ') = false from rfl]

theorem not_root_six (t : Chars) : isRootLine ("      ".data ++ t) = false := by
  show List.isPrefixOf _ _ = false
  rw [show "  root(".data = ' ' :: ' ' :: 'r' :: 'o' :: 'o' :: 't' :: ['('] from rfl,
    show ("      ".data ++ t : Chars) = ' ' :: ' ' :: ' ' :: ("   ".data ++ t) from rfl]
  simp [List.isPrefixOf, show ('r' == ' ') = false from rfl]

theorem not_root_sub (t s : Chars) :
    isRootLine (("      (".data ++ t) ++ s) = false := by
  have h : (("      (".data ++ t) ++ s : Chars) =
      "      ".data ++ (("(".data ++ t) ++ s) := rfl
  rw [h]
  exact not_root_six _

theorem not_root_mindmap : isRootLine "mindmap".data = false := by decide

theorem branchCount_append (a b : List Chars) :
    branchCount (a ++ b) = branchCount a + branchCount b := by
  simp [branchCount, List.filter_append]

theorem branchCount_single_false (x : Chars) (h : isBranchLine x = false) :
    branchCount [x] = 0 := by
  simp [branchCount, List.filter, h]

theorem branchCount_single_true (x : Chars) (h : isBranchLine x = true) :
    branchCount [x] = 1 := by
  simp [branchCount, List.filter, h]

/-! ## C3: the under-production fallback -/

/-- C3: any input for which fewer than 3 repaired lines survive yields the
exact fixed fallback skeleton, byte for byte; the function is total, so no
error is raised or signalled. -/
theorem c3_fallback_skeleton (s : String)
    (h : (fixFinal s.data).fixed_lines.length < 3) :
    validate_and_fix_mermaid s = "mindmap\n  root(Article Content)\n    (Main Topics)\n      (Key Point 1)\n      (Key Point 2)\n    (Details)\n      (Important Info)\n      (Supporting Facts)" := by
  show (⟨validateCore s.data⟩ : String) = _
  simp only [validateCore]
  rw [if_pos h]
  rfl

theorem c3_witness :
    (fixFinal "".data).fixed_lines.length < 3 ∧
    validate_and_fix_mermaid "" = "mindmap\n  root(Article Content)\n    (Main Topics)\n      (Key Point 1)\n      (Key Point 2)\n    (Details)\n      (Important Info)\n      (Supporting Facts)" :=
  ⟨by decide, c3_fallback_skeleton "" (by decide)⟩

/-! ## Case lemmas for fixStep -/

theorem prefix_single_cons {c : Char} {l : Chars} (h : ([c] : Chars).isPrefixOf l = true) :
    ∃ t, l = c :: t := by
  rw [List.isPrefixOf_iff_prefix] at h
  obtain ⟨t, ht⟩ := h
  exact ⟨t, ht.symm⟩

theorem fixStep_fixed_append (st : FixState) (rawLine : Chars) :
    ∃ t, (fixStep st rawLine).fixed_lines = st.fixed_lines ++ t := by
  simp only [fixStep]
  repeat' split
  all_goals first
    | exact ⟨[], (List.append_nil _).symm⟩
    | exact ⟨_, rfl⟩

theorem fixStep_root_mono (st : FixState) (rawLine : Chars)
    (h : st.root_found = true) : (fixStep st rawLine).root_found = true := by
  simp only [fixStep]
  repeat' split
  all_goals simp [h]

theorem fixStep_length_mono (st : FixState) (rawLine : Chars) :
    st.fixed_lines.length ≤ (fixStep st rawLine).fixed_lines.length := by
  obtain ⟨t, ht⟩ := fixStep_fixed_append st rawLine
  rw [ht]
  simp

theorem nl_not_in_wrap (pre suf rawLine : Chars) (hpre : '\n' ∉ pre)
    (hsuf : '\n' ∉ suf) (hl : '\n' ∉ rawLine) :
    '\n' ∉ pre ++ pyStripParens (pyStrip rawLine) ++ suf := by
  intro hmem
  rcases List.mem_append.1 hmem with h1 | h1
  · rcases List.mem_append.1 h1 with h2 | h2
    · exact hpre h2
    · exact hl (mem_of_pyStrip (mem_of_pyStripParens h2))
  · exact hsuf h1

theorem nl_not_in_icon (rawLine : Chars) (hl : '\n' ∉ rawLine) :
    '\n' ∉ "      ".data ++ pyStrip rawLine := by
  intro hmem
  rcases List.mem_append.1 hmem with h1 | h1
  · exact absurd h1 (by decide)
  · exact hl (mem_of_pyStrip h1)

theorem fixStep_nlfree (st : FixState) (rawLine : Chars) (hl : '\n' ∉ rawLine)
    (h : ∀ l ∈ st.fixed_lines, '\n' ∉ l) :
    ∀ l ∈ (fixStep st rawLine).fixed_lines, '\n' ∉ l := by
  simp only [fixStep]
  repeat' split
  all_goals intro x hx
  all_goals try exact h x hx
  all_goals
    rcases List.mem_append.1 hx with h1 | h1
  all_goals try exact h x h1
  all_goals rw [List.mem_singleton] at h1
  all_goals subst h1
  all_goals first
    | exact nl_not_in_wrap _ _ _ (by decide) (by decide) hl
    | exact nl_not_in_icon rawLine hl

theorem fixStep_branchCount (st : FixState) (rawLine : Chars)
    (h : branchCount st.fixed_lines ≤ 4) :
    branchCount (fixStep st rawLine).fixed_lines ≤ 4 := by
  simp only [fixStep]
  repeat' split
  all_goals try exact h
  · show branchCount (st.fixed_lines ++
      ["  root(".data ++ pyStripParens (pyStrip rawLine) ++ ")".data]) ≤ 4
    rw [branchCount_append, branchCount_single_false _ (not_branch_root _ _)]
    simpa using h
  · show branchCount (st.fixed_lines ++ ["      ".data ++ pyStrip rawLine]) ≤ 4
    rw [branchCount_append, branchCount_single_false _ (not_branch_six _)]
    simpa using h
  · rename_i hcond
    show branchCount (st.fixed_lines ++
      ["    (".data ++ pyStripParens (pyStrip rawLine) ++ ")".data]) ≤ 4
    rw [branchCount_append, branchCount_single_true _ (branch_is_branch _ _)]
    have hlt : branchCount st.fixed_lines < 4 := by
      rw [Bool.and_eq_true] at hcond
      exact of_decide_eq_true hcond.2
    omega
  · show branchCount (st.fixed_lines ++
      ["      (".data ++ pyStripParens (pyStrip rawLine) ++ ")".data]) ≤ 4
    rw [branchCount_append, branchCount_single_false _ (not_branch_sub _ _)]
    simpa using h

theorem fixStep_node (st : FixState) (rawLine : Chars)
    (hroot : st.root_found = true)
    (h1 : "(".data.isPrefixOf (pyStrip rawLine) = true)
    (h2 : endsWithChar ')' (pyStrip rawLine) = true)
    (h3 : containsSub "```".data (pyStrip rawLine) = false) :
    fixStep st rawLine =
      if isMainBranch (pyStripParens (pyStrip rawLine)) &&
          decide (branchCount st.fixed_lines < 4) then
        { fixed_lines := st.fixed_lines ++
            ["    (".data ++ pyStripParens (pyStrip rawLine) ++ ")".data],
          root_found := st.root_found,
          current_branch := some (pyStripParens (pyStrip rawLine)) }
      else
        { st with fixed_lines := st.fixed_lines ++
            ["      (".data ++ pyStripParens (pyStrip rawLine) ++ ")".data] } := by
  obtain ⟨t, ht⟩ := prefix_single_cons (c := '(') h1
  have hc1 : ((pyStrip rawLine).isEmpty || (pyStrip rawLine == "mindmap".data)) = false := by
    rw [ht]
    simp [beq_eq_false_iff_ne]
  have hne : (pyStrip rawLine == "(```)".data) = false := by
    rw [beq_eq_false_iff_ne]
    intro hc
    rw [hc] at h3
    exact absurd h3 (by decide)
  have hc2 : ((pyStrip rawLine == "(```)".data) ||
      containsSub "```".data (pyStrip rawLine)) = false := by
    rw [hne, h3]
    rfl
  have hc3 : (!st.root_found && "(".data.isPrefixOf (pyStrip rawLine) &&
      endsWithChar ')' (pyStrip rawLine)) = false := by
    rw [hroot]
    rfl
  have hc4 : ("::icon(".data.isPrefixOf (pyStrip rawLine)) = false := by
    rw [ht, show "::icon(".data = ':' :: ':' :: 'i' :: 'c' :: 'o' :: 'n' :: ['('] from rfl]
    simp [List.isPrefixOf, show (':' == '(') = false from rfl]
  have hc5 : ("(".data.isPrefixOf (pyStrip rawLine) &&
      endsWithChar ')' (pyStrip rawLine)) = true := by
    rw [h1, h2]
    rfl
  simp only [fixStep, hc1, hc2, hc3, hc4, hc5, Bool.false_eq_true, if_false, if_true]

theorem fixStep_root (st : FixState) (rawLine : Chars)
    (hroot : st.root_found = false)
    (h1 : "(".data.isPrefixOf (pyStrip rawLine) = true)
    (h2 : endsWithChar ')' (pyStrip rawLine) = true)
    (h3 : containsSub "```".data (pyStrip rawLine) = false) :
    fixStep st rawLine =
      { fixed_lines := st.fixed_lines ++
          ["  root(".data ++ pyStripParens (pyStrip rawLine) ++ ")".data],
        root_found := true,
        current_branch := st.current_branch } := by
  obtain ⟨t, ht⟩ := prefix_single_cons (c := '(') h1
  have hc1 : ((pyStrip rawLine).isEmpty || (pyStrip rawLine == "mindmap".data)) = false := by
    rw [ht]
    simp [beq_eq_false_iff_ne]
  have hne : (pyStrip rawLine == "(```)".data) = false := by
    rw [beq_eq_false_iff_ne]
    intro hc
    rw [hc] at h3
    exact absurd h3 (by decide)
  have hc2 : ((pyStrip rawLine == "(```)".data) ||
      containsSub "```".data (pyStrip rawLine)) = false := by
    rw [hne, h3]
    rfl
  have hc3 : (!st.root_found && "(".data.isPrefixOf (pyStrip rawLine) &&
      endsWithChar ')' (pyStrip rawLine)) = true := by
    rw [hroot, h1, h2]
    rfl
  simp only [fixStep, hc1, hc2, hc3, Bool.false_eq_true, if_false, if_true]

theorem fixStep_init_skip (rawLine : Chars) (h : parenOk rawLine = false) :
    fixStep initState rawLine = initState := by
  simp only [fixStep]
  split
  · rfl
  · split
    · rfl
    · rename_i hc2 hc3
      split
      · rename_i hc4
        exfalso
        have hC : containsSub "```".data (pyStrip rawLine) = false := by
          have h2 := Bool.eq_false_iff.2 hc3
          exact (Bool.or_eq_false_iff.1 h2).2
        rw [Bool.and_eq_true, Bool.and_eq_true] at hc4
        obtain ⟨⟨_, hA⟩, hB⟩ := hc4
        have : parenOk rawLine = true := by
          simp [parenOk, hA, hB, hC]
        rw [this] at h
        exact absurd h (by simp)
      · split
        · split
          · rename_i hc5 htr
            exfalso
            simp [initState, truthyOpt] at htr
          · rfl
        · split
          · rename_i hc6 hc7
            exfalso
            have hC : containsSub "```".data (pyStrip rawLine) = false := by
              have h2 := Bool.eq_false_iff.2 hc3
              exact (Bool.or_eq_false_iff.1 h2).2
            rw [Bool.and_eq_true] at hc7
            obtain ⟨hA, hB⟩ := hc7
            have : parenOk rawLine = true := by
              simp [parenOk, hA, hB, hC]
            rw [this] at h
            exact absurd h (by simp)
          · rfl

theorem fixStep_root_prefix_skip (st : FixState) (rawLine : Chars)
    (h : "root(".data.isPrefixOf (pyStrip rawLine) = true) :
    fixStep st rawLine = st := by
  have hp := (List.isPrefixOf_iff_prefix).1 h
  obtain ⟨t, ht0⟩ := hp
  have ht : pyStrip rawLine = 'r' :: 'o' :: 'o' :: 't' :: '(' :: t := ht0.symm
  have hc1 : ((pyStrip rawLine).isEmpty || (pyStrip rawLine == "mindmap".data)) = false := by
    rw [ht]
    simp [beq_eq_false_iff_ne]
  have hpre : ("(".data.isPrefixOf (pyStrip rawLine)) = false := by
    rw [ht]
    simp [List.isPrefixOf, show ('(' == 'r') = false from rfl]
  have hicon : ("::icon(".data.isPrefixOf (pyStrip rawLine)) = false := by
    rw [ht, show "::icon(".data = ':' :: ':' :: 'i' :: 'c' :: 'o' :: 'n' :: ['('] from rfl]
    simp [List.isPrefixOf, show (':' == 'r') = false from rfl]
  by_cases hc2 : ((pyStrip rawLine == "(```)".data) ||
      containsSub "```".data (pyStrip rawLine)) = true
  · simp only [fixStep, hc1, hc2, Bool.false_eq_true, if_false, if_true]
  · have hc2f : ((pyStrip rawLine == "(```)".data) ||
        containsSub "```".data (pyStrip rawLine)) = false := Bool.eq_false_iff.2 hc2
    have hc3 : (!st.root_found && "(".data.isPrefixOf (pyStrip rawLine) &&
        endsWithChar ')' (pyStrip rawLine)) = false := by
      rw [hpre]
      simp
    have hc5 : ("(".data.isPrefixOf (pyStrip rawLine) &&
        endsWithChar ')' (pyStrip rawLine)) = false := by
      rw [hpre]
      rfl
    simp only [fixStep, hc1, hc2f, hc3, hicon, hc5, Bool.false_eq_true, if_false]

theorem fixStep_paren_append (st : FixState) (rawLine : Chars)
    (hroot : st.root_found = true) (hp : parenOk rawLine = true) :
    ∃ x, (fixStep st rawLine).fixed_lines = st.fixed_lines ++ [x] := by
  have hps := hp
  simp only [parenOk, Bool.and_eq_true, Bool.not_eq_true'] at hps
  obtain ⟨⟨h1, h2⟩, h3⟩ := hps
  rw [fixStep_node st rawLine hroot h1 h2 h3]
  split
  · exact ⟨_, rfl⟩
  · exact ⟨_, rfl⟩

theorem fixStep_append_nonroot (st : FixState) (rawLine : Chars)
    (hroot : st.root_found = true) :
    ∃ t, (fixStep st rawLine).fixed_lines = st.fixed_lines ++ t ∧
      ∀ l ∈ t, isRootLine l = false := by
  simp only [fixStep]
  repeat' split
  all_goals try exact ⟨[], (List.append_nil _).symm, by simp⟩
  · rename_i hcond
    rw [hroot] at hcond
    exact absurd hcond (by simp)
  · exact ⟨_, rfl, by
      intro l hl
      rw [List.mem_singleton] at hl
      subst hl
      exact not_root_six _⟩
  · exact ⟨_, rfl, by
      intro l hl
      rw [List.mem_singleton] at hl
      subst hl
      exact not_root_branch _ _⟩
  · exact ⟨_, rfl, by
      intro l hl
      rw [List.mem_singleton] at hl
      subst hl
      exact not_root_sub _ _⟩

/-! ## The structural invariant of the repair loop -/

/-- Invariant of the repair loop: lines are newline-free; before a root is
found the state is untouched; after a root is found the output is the
declaration line, then exactly one root line, then non-root lines. -/
def GoodState (st : FixState) : Prop :=
  (∀ l ∈ st.fixed_lines, '\n' ∉ l) ∧
  (st.root_found = false → st = initState) ∧
  (st.root_found = true → ∃ r rest, st.fixed_lines = "mindmap".data :: r :: rest ∧
    isRootLine r = true ∧ ∀ l ∈ rest, isRootLine l = false)

theorem initState_good : GoodState initState := by
  refine ⟨?_, fun _ => rfl, ?_⟩
  · intro l hl
    rw [show initState.fixed_lines = ["mindmap".data] from rfl,
      List.mem_singleton] at hl
    subst hl
    decide
  · intro h0
    exact absurd h0 (by decide)

theorem fixStep_good (st : FixState) (rawLine : Chars) (hl : '\n' ∉ rawLine)
    (h : GoodState st) : GoodState (fixStep st rawLine) := by
  obtain ⟨hnl, hfalse, htrue⟩ := h
  refine ⟨fixStep_nlfree st rawLine hl hnl, ?_, ?_⟩
  · intro h0
    by_cases hrf : st.root_found = true
    · rw [fixStep_root_mono st rawLine hrf] at h0
      exact absurd h0 (by simp)
    · have hst : st = initState := hfalse (Bool.eq_false_iff.2 hrf)
      subst hst
      by_cases hp : parenOk rawLine = true
      · exfalso
        have hps := hp
        simp only [parenOk, Bool.and_eq_true, Bool.not_eq_true'] at hps
        obtain ⟨⟨h1, h2⟩, h3⟩ := hps
        rw [fixStep_root initState rawLine rfl h1 h2 h3] at h0
        exact absurd h0 (by simp)
      · exact fixStep_init_skip rawLine (Bool.eq_false_iff.2 hp)
  · intro h0
    by_cases hrf : st.root_found = true
    · obtain ⟨r, rest, hfl, hr, hrest⟩ := htrue hrf
      obtain ⟨t, happ, hnonroot⟩ := fixStep_append_nonroot st rawLine hrf
      refine ⟨r, rest ++ t, ?_, hr, ?_⟩
      · rw [happ, hfl]
        simp
      · intro l hml
        rcases List.mem_append.1 hml with h1 | h1
        · exact hrest l h1
        · exact hnonroot l h1
    · have hst : st = initState := hfalse (Bool.eq_false_iff.2 hrf)
      subst hst
      by_cases hp : parenOk rawLine = true
      · have hps := hp
        simp only [parenOk, Bool.and_eq_true, Bool.not_eq_true'] at hps
        obtain ⟨⟨h1, h2⟩, h3⟩ := hps
        rw [fixStep_root initState rawLine rfl h1 h2 h3]
        exact ⟨"  root(".data ++ pyStripParens (pyStrip rawLine) ++ ")".data, [],
          rfl, root_is_root _ _, by simp⟩
      · rw [fixStep_init_skip rawLine (Bool.eq_false_iff.2 hp)] at h0
        exact absurd h0 (by decide)

theorem foldl_good (lines : List Chars) (hl : ∀ l ∈ lines, '\n' ∉ l)
    (st : FixState) (h : GoodState st) : GoodState (lines.foldl fixStep st) := by
  induction lines generalizing st with
  | nil => exact h
  | cons a rest ih =>
    exact ih (fun l hm => hl l (List.mem_cons_of_mem a hm)) _
      (fixStep_good st a (hl a (List.mem_cons_self _ _)) h)

theorem foldl_branchCount (lines : List Chars) (st : FixState)
    (h : branchCount st.fixed_lines ≤ 4) :
    branchCount ((lines.foldl fixStep st).fixed_lines) ≤ 4 := by
  induction lines generalizing st with
  | nil => exact h
  | cons a rest ih => exact ih _ (fixStep_branchCount st a h)

theorem foldl_root_mono (lines : List Chars) (st : FixState)
    (h : st.root_found = true) : (lines.foldl fixStep st).root_found = true := by
  induction lines generalizing st with
  | nil => exact h
  | cons a rest ih => exact ih _ (fixStep_root_mono st a h)

theorem foldl_fixed_append (lines : List Chars) (st : FixState) :
    ∃ t, (lines.foldl fixStep st).fixed_lines = st.fixed_lines ++ t := by
  induction lines generalizing st with
  | nil => exact ⟨[], (List.append_nil _).symm⟩
  | cons a rest ih =>
    obtain ⟨t1, h1⟩ := fixStep_fixed_append st a
    obtain ⟨t2, h2⟩ := ih (fixStep st a)
    exact ⟨t1 ++ t2, by rw [List.foldl_cons, h2, h1, List.append_assoc]⟩

theorem foldl_length_mono (lines : List Chars) (st : FixState) :
    st.fixed_lines.length ≤ ((lines.foldl fixStep st).fixed_lines).length := by
  obtain ⟨t, ht⟩ := foldl_fixed_append lines st
  rw [ht]
  simp

theorem foldl_init_skip (lines : List Chars)
    (h : ∀ l ∈ lines, parenOk l = false) :
    lines.foldl fixStep initState = initState := by
  induction lines with
  | nil => rfl
  | cons a rest ih =>
    rw [List.foldl_cons, fixStep_init_skip a (h a (List.mem_cons_self _ _))]
    exact ih (fun l hm => h l (List.mem_cons_of_mem a hm))

/-! ## Assembling the output of validate_and_fix_mermaid -/

theorem validateCore_fallback (input : Chars)
    (h : (fixFinal input).fixed_lines.length < 3) :
    validateCore input = mermaid_fallback := by
  simp only [validateCore]
  rw [if_pos h]

theorem validateCore_join (input : Chars)
    (h : ¬(fixFinal input).fixed_lines.length < 3) :
    validateCore input = joinLines (fixFinal input).fixed_lines := by
  simp only [validateCore]
  rw [if_neg h]

theorem goodState_fixFinal (input : Chars) : GoodState (fixFinal input) := by
  refine foldl_good _ ?_ _ initState_good
  rw [repairLines]
  exact splitLines_no_newline _

theorem fixFinal_lines (input : Chars)
    (h : ¬(fixFinal input).fixed_lines.length < 3) :
    splitLines (validateCore input) = (fixFinal input).fixed_lines := by
  rw [validateCore_join input h]
  refine splitLines_joinLines _ ?_ (goodState_fixFinal input).1
  intro hnil
  rw [hnil] at h
  exact h (by simp)

theorem validate_data (s : String) :
    (validate_and_fix_mermaid s).data = validateCore s.data := by
  have h : validate_and_fix_mermaid s = ⟨validateCore s.data⟩ := by
    unfold validate_and_fix_mermaid
    rfl
  rw [h]

set_option maxHeartbeats 4000000 in
theorem fallback_split :
    splitLines mermaid_fallback =
      ["mindmap".data, "  root(Article Content)".data, "    (Main Topics)".data,
       "      (Key Point 1)".data, "      (Key Point 2)".data, "    (Details)".data,
       "      (Important Info)".data, "      (Supporting Facts)".data] := by
  decide

theorem fixFinal_root_true (input : Chars)
    (h : ¬(fixFinal input).fixed_lines.length < 3) :
    (fixFinal input).root_found = true := by
  by_cases hrf : (fixFinal input).root_found = true
  · exact hrf
  · have h0 := (goodState_fixFinal input).2.1 (Bool.eq_false_iff.2 hrf)
    rw [h0] at h
    exact absurd (by decide : (initState.fixed_lines).length < 3) h

set_option maxHeartbeats 4000000 in
set_option maxRecDepth 8000 in
/-- C1 as amended: the output always starts with the declaration line
followed by the root line and contains exactly one root line; and when the
lines seen by the repair loop (the input after markdown-fence removal)
contain a first root-eligible line followed later by a further fence-free
parenthesized line, the root label is the stripped content of that first
root-eligible line. -/
theorem c1_root_structure :
    (∀ s : String,
      (splitLines (validate_and_fix_mermaid s).data).head? = some "mindmap".data ∧
      isRootLine ((splitLines (validate_and_fix_mermaid s).data).getD 1 []) = true ∧
      ((splitLines (validate_and_fix_mermaid s).data).filter isRootLine).length = 1) ∧
    (∀ (s : String) (pre post : List Chars) (e : Chars),
      repairLines s.data = pre ++ e :: post →
      (∀ l ∈ pre, parenOk l = false) →
      parenOk e = true →
      (∃ p ∈ post, parenOk p = true) →
      (splitLines (validate_and_fix_mermaid s).data).getD 1 [] =
        "  root(".data ++ pyStripParens (pyStrip e) ++ ")".data) := by
  constructor
  · intro s
    by_cases h : (fixFinal s.data).fixed_lines.length < 3
    · have he : (validate_and_fix_mermaid s).data = mermaid_fallback := by
        rw [validate_data]
        exact validateCore_fallback s.data h
      rw [he, fallback_split]
      exact ⟨rfl, by decide, by decide⟩
    · have he : splitLines (validate_and_fix_mermaid s).data =
          (fixFinal s.data).fixed_lines := by
        rw [validate_data]
        exact fixFinal_lines s.data h
      obtain ⟨r, rest, hfl, hr, hrest⟩ :=
        (goodState_fixFinal s.data).2.2 (fixFinal_root_true s.data h)
      rw [he, hfl]
      refine ⟨rfl, by simpa using hr, ?_⟩
      rw [List.filter_cons_of_neg (by decide),
        List.filter_cons_of_pos (by simp [hr])]
      have hnil : List.filter isRootLine rest = [] := by
        rw [List.filter_eq_nil_iff]
        intro a ha
        simp [hrest a ha]
      rw [hnil]
      rfl
  · intro s pre post e hsplit hpre hpe hpost
    have hpe2 := hpe
    simp only [parenOk, Bool.and_eq_true, Bool.not_eq_true'] at hpe2
    obtain ⟨⟨h1, h2⟩, h3⟩ := hpe2
    have hst1 : fixStep initState e =
        ⟨["mindmap".data, "  root(".data ++ pyStripParens (pyStrip e) ++ ")".data],
          true, none⟩ := by
      rw [fixStep_root initState e rfl h1 h2 h3]
      rfl
    have hff : fixFinal s.data = post.foldl fixStep (fixStep initState e) := by
      rw [fixFinal, hsplit, List.foldl_append, foldl_init_skip pre hpre,
        List.foldl_cons]
    obtain ⟨p, hpmem, hpok⟩ := hpost
    obtain ⟨post1, post2, hp12⟩ := List.append_of_mem hpmem
    have hlen : ¬(fixFinal s.data).fixed_lines.length < 3 := by
      rw [hff, hp12, List.foldl_append, List.foldl_cons]
      have hroot1 : (post1.foldl fixStep (fixStep initState e)).root_found = true := by
        apply foldl_root_mono
        rw [hst1]
      have hlen1 : (fixStep initState e).fixed_lines.length = 2 := by
        rw [hst1]
        rfl
      have hl2 : 2 ≤ (post1.foldl fixStep (fixStep initState e)).fixed_lines.length := by
        have hm := foldl_length_mono post1 (fixStep initState e)
        omega
      obtain ⟨x, hx⟩ := fixStep_paren_append _ p hroot1 hpok
      have hl3 : 3 ≤
          (fixStep (post1.foldl fixStep (fixStep initState e)) p).fixed_lines.length := by
        rw [hx]
        rw [List.length_append]
        simp only [List.length_singleton]
        omega
      have hl4 := foldl_length_mono post2
        (fixStep (post1.foldl fixStep (fixStep initState e)) p)
      omega
    have hlines : splitLines (validate_and_fix_mermaid s).data =
        (fixFinal s.data).fixed_lines := by
      rw [validate_data]
      exact fixFinal_lines s.data hlen
    obtain ⟨t, ht⟩ := foldl_fixed_append post (fixStep initState e)
    rw [hlines, hff, ht, hst1]
    rfl

set_option maxHeartbeats 4000000 in
set_option maxRecDepth 8000 in
/-- C1 counterexample to the claim as literally stated: with root
eligibility read off the raw input lines, the input below has first
root-eligible line (A), yet the emitted root label is X, because fence
markers are deleted from the whole text before line classification, turning
the raw line with backticks into a parenthesized line. -/
theorem c1_counterexample :
    splitLines "```(X)\n(A)\n(B)".data =
      ["```(X)".data, "(A)".data, "(B)".data] ∧
    claimRootEligible "```(X)".data = false ∧
    claimRootEligible "(A)".data = true ∧
    claimRootEligible "(B)".data = true ∧
    pyStripParens (pyStrip "(A)".data) = "A".data ∧
    validate_and_fix_mermaid "```(X)\n(A)\n(B)" = "mindmap\n  root(X)\n      (A)\n      (B)" ∧
    (splitLines (validate_and_fix_mermaid "```(X)\n(A)\n(B)").data).getD 1 [] ≠
      "  root(".data ++ "A".data ++ ")".data := by
  refine ⟨by decide, by decide, by decide, by decide, by decide, by decide, by decide⟩

set_option maxHeartbeats 4000000 in
set_option maxRecDepth 8000 in
theorem c1_witness :
    ((splitLines (validate_and_fix_mermaid "").data).head? = some "mindmap".data ∧
      isRootLine ((splitLines (validate_and_fix_mermaid "").data).getD 1 []) = true ∧
      ((splitLines (validate_and_fix_mermaid "").data).filter isRootLine).length = 1) ∧
    (splitLines (validate_and_fix_mermaid "(Root)\n(Child)").data).getD 1 [] =
      "  root(".data ++ pyStripParens (pyStrip "(Root)".data) ++ ")".data :=
  ⟨c1_root_structure.1 "",
   c1_root_structure.2 "(Root)\n(Child)" [] ["(Child)".data] "(Root)".data
     (by decide) (by simp) (by decide)
     ⟨"(Child)".data, by simp, by decide⟩⟩

set_option maxHeartbeats 4000000 in
set_option maxRecDepth 8000 in
/-- C2: the output never contains more than 4 top-level branch lines, and a
parenthesized line is emitted as a top-level branch exactly when its
lowercased content contains one of the fixed keywords and fewer than 4
branch lines have been emitted so far, and as a 6-space nested item
otherwise. -/
theorem c2_branch_cap :
    (∀ s : String,
      ((splitLines (validate_and_fix_mermaid s).data).filter isBranchLine).length ≤ 4) ∧
    (∀ (st : FixState) (rawLine : Chars),
      st.root_found = true →
      "(".data.isPrefixOf (pyStrip rawLine) = true →
      endsWithChar ')' (pyStrip rawLine) = true →
      containsSub "```".data (pyStrip rawLine) = false →
      fixStep st rawLine =
        if isMainBranch (pyStripParens (pyStrip rawLine)) &&
            decide (branchCount st.fixed_lines < 4) then
          { fixed_lines := st.fixed_lines ++
              ["    (".data ++ pyStripParens (pyStrip rawLine) ++ ")".data],
            root_found := st.root_found,
            current_branch := some (pyStripParens (pyStrip rawLine)) }
        else
          { st with fixed_lines := st.fixed_lines ++
              ["      (".data ++ pyStripParens (pyStrip rawLine) ++ ")".data] }) := by
  constructor
  · intro s
    by_cases h : (fixFinal s.data).fixed_lines.length < 3
    · have he : (validate_and_fix_mermaid s).data = mermaid_fallback := by
        rw [validate_data]
        exact validateCore_fallback s.data h
      rw [he, fallback_split]
      decide
    · have he : splitLines (validate_and_fix_mermaid s).data =
          (fixFinal s.data).fixed_lines := by
        rw [validate_data]
        exact fixFinal_lines s.data h
      rw [he]
      show branchCount (fixFinal s.data).fixed_lines ≤ 4
      exact foldl_branchCount _ initState (by decide)
  · exact fixStep_node

set_option maxHeartbeats 4000000 in
set_option maxRecDepth 8000 in
theorem c2_witness :
    ((splitLines (validate_and_fix_mermaid "").data).filter isBranchLine).length ≤ 4 ∧
    fixStep ⟨["mindmap".data, "  root(T)".data], true, none⟩ "(Marketing Plan)".data =
      { fixed_lines := ["mindmap".data, "  root(T)".data, "    (Marketing Plan)".data],
        root_found := true,
        current_branch := some "Marketing Plan".data } := by
  refine ⟨c2_branch_cap.1 "", ?_⟩
  rw [c2_branch_cap.2 ⟨["mindmap".data, "  root(T)".data], true, none⟩
    "(Marketing Plan)".data rfl (by decide) (by decide) (by decide)]
  decide

set_option maxHeartbeats 4000000 in
set_option maxRecDepth 8000 in
/-- C9: any line whose stripped form starts with the root keyword and an
opening parenthesis is silently dropped by the repair loop (the state is
unchanged), and consequently on the exact prompt-format example the first
branch line becomes the root. -/
theorem c9_root_lines_dropped :
    (∀ (st : FixState) (rawLine : Chars),
      "root(".data.isPrefixOf (pyStrip rawLine) = true →
      fixStep st rawLine = st) ∧
    validate_and_fix_mermaid "mindmap\n  root(Main Topic)\n    (Branch 1)\n      ::icon(fa fa-lightbulb)\n      (Sub Item A)\n      (Sub Item B)\n    (Branch 2)\n      ::icon(fa fa-cogs)\n      (Sub Item C)\n      (Sub Item D)" =
      "mindmap\n  root(Branch 1)\n      (Sub Item A)\n      (Sub Item B)\n      (Branch 2)\n      (Sub Item C)\n      (Sub Item D)" :=
  ⟨fixStep_root_prefix_skip, by decide⟩

set_option maxHeartbeats 4000000 in
set_option maxRecDepth 8000 in
theorem c9_witness :
    fixStep initState "  root(Topic)".data = initState :=
  c9_root_lines_dropped.1 initState "  root(Topic)".data (by decide)

/-! ## analyze_diagram_complexity (src/utils.py lines 405-570)

The regular expressions of the source are translated into explicit
scanners. Python re.findall scans left to right, attempts a match at each
position, and resumes after the end of a successful match; each scanner
below follows that discipline, with a fuel argument bounding the scan (one
character is consumed per step, so the length of the text suffices). -/

/-- Python regex class [A-Z]. -/
def isUpperC (c : Char) : Bool := decide ('A' ≤ c ∧ c ≤ 'Z')

/-- Python regex class for a decimal digit. -/
def isDigitC (c : Char) : Bool := decide ('0' ≤ c ∧ c ≤ '9')

/-- Scanner for the mindmap node pattern: an opening parenthesis, one or
more characters other than a closing parenthesis, then a closing
parenthesis; returns the captured groups. -/
def parenGroupsAux : Nat → Chars → List Chars
  | 0, _ => []
  | _, [] => []
  | fuel + 1, c :: rest =>
    if c = '(' then
      let g := rest.takeWhile (fun d => d ≠ ')')
      if g.isEmpty then parenGroupsAux fuel rest
      else
        match rest.drop g.length with
        | ')' :: rest2 => g :: parenGroupsAux fuel rest2
        | _ => parenGroupsAux fuel rest
    else parenGroupsAux fuel rest

def parenGroups (l : Chars) : List Chars := parenGroupsAux l.length l

/-- Scanner for the bracketed node patterns: an uppercase letter, optional
digits when allowed (flowchart) and none otherwise (network), an opening
delimiter, one or more characters other than the closing delimiter, then
the closing delimiter; returns (identifier, label) pairs. -/
def bracketNodesAux (openC closeC : Char) (allowDigits : Bool) :
    Nat → Chars → List (Chars × Chars)
  | 0, _ => []
  | _, [] => []
  | fuel + 1, c :: rest =>
    if isUpperC c then
      let ds := if allowDigits then rest.takeWhile isDigitC else []
      match rest.drop ds.length with
      | b :: rest2 =>
        if b = openC then
          let g := rest2.takeWhile (fun d => d ≠ closeC)
          if g.isEmpty then bracketNodesAux openC closeC allowDigits fuel rest
          else
            match rest2.drop g.length with
            | b2 :: rest3 =>
              if b2 = closeC then
                (c :: ds, g) :: bracketNodesAux openC closeC allowDigits fuel rest3
              else bracketNodesAux openC closeC allowDigits fuel rest
            | [] => bracketNodesAux openC closeC allowDigits fuel rest
        else bracketNodesAux openC closeC allowDigits fuel rest
      | [] => bracketNodesAux openC closeC allowDigits fuel rest
    else bracketNodesAux openC closeC allowDigits fuel rest

def bracketNodes (openC closeC : Char) (allowDigits : Bool) (l : Chars) :
    List (Chars × Chars) :=
  bracketNodesAux openC closeC allowDigits l.length l

/-- Count of non-overlapping occurrences of a fixed nonempty token. -/
def countTokenAux (pat : Chars) : Nat → Chars → Nat
  | 0, _ => 0
  | _, [] => 0
  | fuel + 1, c :: rest =>
    if pat.isPrefixOf (c :: rest) then
      1 + countTokenAux pat fuel ((c :: rest).drop pat.length)
    else countTokenAux pat fuel rest

def countToken (pat l : Chars) : Nat := countTokenAux pat l.length l

/-- Count for the network connector alternation: at each position the three
dashes alternative is tried before the arrow, as in the source pattern. -/
def countConnAux : Nat → Chars → Nat
  | 0, _ => 0
  | _, [] => 0
  | fuel + 1, c :: rest =>
    if "---".data.isPrefixOf (c :: rest) then
      1 + countConnAux fuel ((c :: rest).drop 3)
    else if "-->".data.isPrefixOf (c :: rest) then
      1 + countConnAux fuel ((c :: rest).drop 3)
    else countConnAux fuel rest

def countConn (l : Chars) : Nat := countConnAux l.length l

/-- Scanner for the timeline pattern: one or more non-colon characters,
then a colon, optional whitespace, then at least one more character taken
greedily to the end. Since the match extends to the end of the line, at
most one match arises per line; lines never contain a newline here, so the
dot-excludes-newline subtlety of the source pattern cannot arise. When the
text after the colon is all whitespace, the whitespace run backtracks by
one character so that the second group still matches. -/
def timelineMatchAux : Nat → Chars → Option (Chars × Chars)
  | 0, _ => none
  | _, [] => none
  | fuel + 1, c :: rest =>
    if c = ':' then timelineMatchAux fuel rest
    else
      let g1 := (c :: rest).takeWhile (fun d => d ≠ ':')
      match (c :: rest).drop g1.length with
      | ':' :: rest2 =>
        if rest2.isEmpty then timelineMatchAux fuel rest
        else
          let w := rest2.dropWhile pyIsSpace
          if w.isEmpty then
            match rest2.reverse with
            | [] => none
            | d :: _ => some (g1, [d])
          else some (g1, w)
      | _ => timelineMatchAux fuel rest

def timelineMatch (l : Chars) : Option (Chars × Chars) :=
  timelineMatchAux l.length l

/-- Diagram kind detection by substring presence, in the fixed source
order; the graph keyword maps to the network kind. -/
def detectType (code : Chars) : String :=
  if containsSub "mindmap".data code then "mindmap"
  else if containsSub "flowchart".data code then "flowchart"
  else if containsSub "timeline".data code then "timeline"
  else if containsSub "graph".data code then "network"
  else "unknown"

/-- Running totals of the line walk: the deduplicated node set (modelled as
a duplicate-free list in insertion order), edge count, total label length,
longest label length, and the two depth counters. -/
structure ScanState where
  nodes : List Chars
  edges : Nat
  total_text : Nat
  max_line_length : Nat
  current_depth : Nat
  max_depth : Nat

/-- Python set.add: insert if not already present. -/
def addNode (nodes : List Chars) (n : Chars) : List Chars :=
  if n ∈ nodes then nodes else nodes ++ [n]

/-- Record one extracted label: deduplicated node insertion plus text
accounting. -/
def recordNode (st : ScanState) (nodeKey label : Chars) : ScanState :=
  { st with nodes := addNode st.nodes nodeKey,
            total_text := st.total_text + label.length,
            max_line_length := max st.max_line_length label.length }

/-- One iteration of the line walk of analyze_diagram_complexity. The
indentation is computed on the already stripped line exactly as in the
source (which strips the line before measuring its leading whitespace, so
the measured indentation is always zero). -/
def scanLine (dtype : String) (st : ScanState) (rawLine : Chars) : ScanState :=
  let line := pyStrip rawLine
  if line.isEmpty || "%%".data.isPrefixOf line then st
  else
    let indent_level := (line.length - (line.dropWhile pyIsSpace).length) / 2
    let current_depth := max st.current_depth indent_level
    let max_depth := max st.max_depth current_depth
    let st := { st with current_depth := current_depth, max_depth := max_depth }
    if dtype = "mindmap" then
      (parenGroups line).foldl (fun s g => recordNode s g g) st
    else if dtype = "flowchart" then
      let nm := bracketNodes '[' ']' true line
      let dm := bracketNodes '\x7b' '\x7d' true line
      let st2 := (nm ++ dm).foldl (fun s p => recordNode s p.1 p.2) st
      { st2 with edges := st2.edges + countToken "-->".data line }
    else if dtype = "timeline" then
      match timelineMatch line with
      | some p => recordNode st p.1 p.2
      | none => st
    else if dtype = "network" then
      let st2 := (bracketNodes '[' ']' false line).foldl
        (fun s p => recordNode s p.1 p.2) st
      { st2 with edges := st2.edges + countConn line }
    else st

/-- Node count contribution (0-30 points). -/
def nodeTermQ (n : Nat) : ℚ :=
  if n ≤ 5 then (n : ℚ) * 3
  else if n ≤ 15 then 15 + ((n : ℚ) - 5) * 1.5
  else 30

/-- Text density contribution (0-20 points). -/
def densityTerm (avg : ℚ) : ℚ :=
  if avg > 50 then 20
  else if avg > 25 then 15
  else if avg > 15 then 10
  else avg / 3

/-- Type-specific bonus (0-10 points), dict lookup with default 5. -/
def typeBonus (t : String) : ℚ :=
  if t = "mindmap" then 5
  else if t = "flowchart" then 8
  else if t = "timeline" then 4
  else if t = "network" then 10
  else 5

/-- Python int(): truncation toward zero. -/
def pyInt (q : ℚ) : ℤ := if q < 0 then ⌈q⌉ else ⌊q⌋

/-- The base height band picked by the score thresholds (base height 1000
raised by 400, 800, 1200 or 1600). -/
def band (score : ℤ) : Nat :=
  if score ≤ 20 then 1000
  else if score ≤ 40 then 1400
  else if score ≤ 60 then 1800
  else if score ≤ 80 then 2200
  else 2600

/-- The analysis dict of analyze_diagram_complexity; recommended_width is
the constant written once and never changed. -/
structure DiagramAnalysis where
  dtype : String
  node_count : Nat
  edge_count : Nat
  text_density : ℚ
  max_depth : Nat
  branching_factor : ℚ
  complexity_score : ℤ
  recommended_height : Nat
  recommended_width : String

/-- The full line walk of analyze_diagram_complexity over the (outer
stripped) lines, from the all-zero initial totals. -/
def scanAll (code : Chars) : ScanState :=
  (splitLines (pyStrip code)).foldl (scanLine (detectType code)) ⟨[], 0, 0, 0, 0, 0⟩

/-- Aggregate: total label length over max(node count, 1). -/
def densityOf (total n : Nat) : ℚ := (total : ℚ) / (max n 1 : ℚ)

/-- Aggregate: edge count over max(node count, 1), doubly guarded exactly
as in the source (the expression defaults to 0 when the node count is 0). -/
def branchingOf (edges n : Nat) : ℚ :=
  if 0 < n then (edges : ℚ) / (max n 1 : ℚ) else 0

/-- The exact weighted sum accumulated into complexity_score before the
final int truncation and min clamp. -/
def scoreQ (dtype : String) (n edges total maxd : Nat) : ℚ :=
  nodeTermQ n + min ((maxd : ℚ) * 5) 25 + densityTerm (densityOf total n) +
    min (branchingOf edges n * 10) 15 + typeBonus dtype

/-- Core of analyze_diagram_complexity, translated step by step: type
detection, line walk, aggregation with the max guard on the divisors,
piecewise scoring clamped to 100, and height banding with the per-node
floor and the 2500 ceiling. -/
def analyzeCore (code : Chars) : DiagramAnalysis :=
  let dtype := detectType code
  let st := scanAll code
  let n := st.nodes.length
  let score := min (pyInt (scoreQ dtype n st.edges st.total_text st.max_depth)) 100
  let height := min (max (band score) (n * 100)) 2500
  ⟨dtype, n, st.edges, densityOf st.total_text n, st.max_depth,
    branchingOf st.edges n, score, height, "100%"⟩

/-- analyze_diagram_complexity from src/utils.py. -/
def analyze_diagram_complexity (s : String) : DiagramAnalysis :=
  analyzeCore s.data

/-! ## Score bounds for the complexity estimator -/

theorem nodeTermQ_nonneg (n : Nat) : 0 ≤ nodeTermQ n := by
  unfold nodeTermQ
  split
  · positivity
  · split
    · rename_i h1 h2
      have h5 : (5 : ℚ) ≤ (n : ℚ) := by
        exact_mod_cast (by omega : 5 ≤ n)
      nlinarith
    · norm_num

theorem densityOf_nonneg (total n : Nat) : 0 ≤ densityOf total n := by
  unfold densityOf
  positivity

theorem densityTerm_nonneg (avg : ℚ) (h : 0 ≤ avg) : 0 ≤ densityTerm avg := by
  unfold densityTerm
  split
  · norm_num
  · split
    · norm_num
    · split
      · norm_num
      · positivity

theorem branchingOf_nonneg (edges n : Nat) : 0 ≤ branchingOf edges n := by
  unfold branchingOf
  split
  · positivity
  · exact le_refl 0

theorem typeBonus_nonneg (t : String) : 0 ≤ typeBonus t := by
  unfold typeBonus
  repeat' split
  all_goals norm_num

theorem scoreQ_nonneg (dtype : String) (n edges total maxd : Nat) :
    0 ≤ scoreQ dtype n edges total maxd := by
  unfold scoreQ
  have h1 := nodeTermQ_nonneg n
  have h2 : (0 : ℚ) ≤ min ((maxd : ℚ) * 5) 25 := le_min (by positivity) (by norm_num)
  have h3 := densityTerm_nonneg _ (densityOf_nonneg total n)
  have h4 : (0 : ℚ) ≤ min (branchingOf edges n * 10) 15 :=
    le_min (by have := branchingOf_nonneg edges n; positivity) (by norm_num)
  have h5 := typeBonus_nonneg dtype
  linarith

theorem pyInt_nonneg (q : ℚ) (h : 0 ≤ q) : 0 ≤ pyInt q := by
  rw [pyInt, if_neg (not_lt.2 h)]
  exact Int.le_floor.2 (by exact_mod_cast h)

theorem analyze_score_form (s : String) :
    (analyze_diagram_complexity s).complexity_score =
      min (pyInt (scoreQ (detectType s.data) (scanAll s.data).nodes.length
        (scanAll s.data).edges (scanAll s.data).total_text
        (scanAll s.data).max_depth)) 100 := rfl

theorem analyze_height_form (s : String) :
    (analyze_diagram_complexity s).recommended_height =
      min (max (band (analyze_diagram_complexity s).complexity_score)
        ((analyze_diagram_complexity s).node_count * 100)) 2500 := rfl

theorem band_ge (z : ℤ) : 1000 ≤ band z := by
  unfold band
  repeat' split
  all_goals norm_num

/-- C4: analyze_diagram_complexity is a total function whose divisions are
guarded by max(node count, 1), so every input, including the empty string,
produces a result, and the complexity score is an integer within 0 and 100.
On the empty string the walk finds no nodes and the score is the default
type bonus 5. -/
theorem c4_score_in_range :
    (∀ s : String,
      0 ≤ (analyze_diagram_complexity s).complexity_score ∧
      (analyze_diagram_complexity s).complexity_score ≤ 100) ∧
    (analyze_diagram_complexity "").node_count = 0 ∧
    (analyze_diagram_complexity "").complexity_score = 5 := by
  refine ⟨?_, by decide, ?_⟩
  · intro s
    rw [analyze_score_form]
    constructor
    · exact le_min (pyInt_nonneg _ (scoreQ_nonneg _ _ _ _ _)) (by norm_num)
    · exact min_le_right _ _
  · have hform : (analyze_diagram_complexity "").complexity_score =
        min (pyInt (scoreQ "unknown" 0 0 0 0)) 100 := rfl
    rw [hform]
    have hq : scoreQ "unknown" 0 0 0 0 = 5 := by
      have hb : typeBonus "unknown" = 5 := by
        rw [typeBonus, if_neg (by decide), if_neg (by decide), if_neg (by decide),
          if_neg (by decide)]
      unfold scoreQ nodeTermQ densityTerm densityOf branchingOf
      rw [hb]
      norm_num [min_def]
    rw [hq]
    have hp : pyInt 5 = 5 := by
      rw [pyInt, if_neg (by norm_num)]
      norm_num
    rw [hp]
    norm_num [min_def]

/-- The input exhibiting 26 distinct mindmap nodes. -/
def mindmap26 : String :=
  "mindmap\n(a)\n(b)\n(c)\n(d)\n(e)\n(f)\n(g)\n(h)\n(i)\n(j)\n(k)\n(l)\n(m)\n(n)\n(o)\n(p)\n(q)\n(r)\n(s)\n(t)\n(u)\n(v)\n(w)\n(x)\n(y)\n(z)"

set_option maxHeartbeats 4000000 in
set_option maxRecDepth 8000 in
/-- C5 counterexample: with 26 distinct nodes the per-node minimum is
2600px, above the 2500px ceiling, so the recommended height (2500) falls
below the lower end of the claimed interval and the claim as stated is
false. -/
theorem c5_counterexample :
    (analyze_diagram_complexity mindmap26).node_count = 26 ∧
    (analyze_diagram_complexity mindmap26).recommended_height = 2500 ∧
    (analyze_diagram_complexity mindmap26).recommended_height <
      (analyze_diagram_complexity mindmap26).node_count * 100 := by
  have hn : (analyze_diagram_complexity mindmap26).node_count = 26 := by decide
  have hh : (analyze_diagram_complexity mindmap26).recommended_height = 2500 := by
    rw [analyze_height_form, hn]
    have h1 : 2500 ≤ max (band (analyze_diagram_complexity mindmap26).complexity_score)
        (26 * 100) := le_trans (by norm_num) (le_max_right _ _)
    exact min_eq_right h1
  refine ⟨hn, hh, ?_⟩
  rw [hn, hh]
  norm_num

/-- C5 as amended: the recommended height is exactly the score band raised
to the per-node minimum and clamped to 2500, hence it always lies between
min(node count x 100, 2500) and 2500, and never below 1000. -/
theorem c5_height_bounds (s : String) :
    (analyze_diagram_complexity s).recommended_height =
      min (max (band (analyze_diagram_complexity s).complexity_score)
        ((analyze_diagram_complexity s).node_count * 100)) 2500 ∧
    min ((analyze_diagram_complexity s).node_count * 100) 2500 ≤
      (analyze_diagram_complexity s).recommended_height ∧
    (analyze_diagram_complexity s).recommended_height ≤ 2500 ∧
    1000 ≤ (analyze_diagram_complexity s).recommended_height := by
  refine ⟨analyze_height_form s, ?_, ?_, ?_⟩
  · rw [analyze_height_form]
    exact min_le_min (le_max_right _ _) (le_refl _)
  · rw [analyze_height_form]
    exact min_le_right _ _
  · rw [analyze_height_form]
    refine le_min ?_ (by norm_num)
    exact le_trans (band_ge _) (le_max_left _ _)

/-! ## scrape_text and generate_mindmap_with_claude (src/utils.py lines
7-41 and 80-140)

The external HTTP fetch and the remote LLM call are modelled as oracles: a
call either returns a value or raises an exception carrying a message. The
Python try blocks catch every exception and convert it to a string, so the
embedded functions are total and return the same strings the source builds. -/

/-- Outcome of an external call: a returned value or a raised exception
with its message. -/
inductive PyOutcome (α : Type) where
  | ok : α → PyOutcome α
  | raised : String → PyOutcome α

/-- The response object of the HTTP library: status code and body. -/
structure HttpResp where
  status_code : Int
  content : String

/-- scrape_text from src/utils.py: the fetch oracle models requests.get
and the extract oracle models the BeautifulSoup text extraction, both of
which run inside the same try block. -/
def scrape_text (fetch : PyOutcome HttpResp)
    (extract : String → PyOutcome String) : String :=
  match fetch with
  | .raised e => "Error scraping website: " ++ e
  | .ok resp =>
    if resp.status_code = 200 then
      match extract resp.content with
      | .raised e => "Error scraping website: " ++ e
      | .ok text => text
    else "Failed to scrape website. Status code: " ++ toString resp.status_code

/-- generate_mindmap_with_claude from src/utils.py: the oracle models the
client.messages.create call; on success the message text is stripped, on
any exception the error string is returned. -/
def generate_mindmap_with_claude (llm : PyOutcome String) : String :=
  match llm with
  | .raised e => "Error generating mindmap: " ++ e
  | .ok msg => ⟨pyStrip msg.data⟩

theorem prefix_of_append_mid (p mid t : Chars) :
    p.isPrefixOf ((p ++ mid) ++ t) = true := by
  rw [List.append_assoc]
  exact isPrefixOf_append _ _

/-- C8: neither function propagates an exception: both are total and every
failure becomes an ordinary string, prefixed Failed for a non-200 status
and Error for a caught exception, with the generation function using the
exact format Error generating mindmap: message. -/
theorem c8_failures_as_strings :
    (∀ (e : String) (extract : String → PyOutcome String),
      scrape_text (.raised e) extract = "Error scraping website: " ++ e ∧
      "Error".data.isPrefixOf (scrape_text (.raised e) extract).data = true) ∧
    (∀ (resp : HttpResp) (extract : String → PyOutcome String),
      resp.status_code ≠ 200 →
      scrape_text (.ok resp) extract =
        "Failed to scrape website. Status code: " ++ toString resp.status_code ∧
      "Failed".data.isPrefixOf (scrape_text (.ok resp) extract).data = true) ∧
    (∀ (resp : HttpResp) (extract : String → PyOutcome String) (e : String),
      resp.status_code = 200 → extract resp.content = .raised e →
      scrape_text (.ok resp) extract = "Error scraping website: " ++ e ∧
      "Error".data.isPrefixOf (scrape_text (.ok resp) extract).data = true) ∧
    (∀ e : String,
      generate_mindmap_with_claude (.raised e) = "Error generating mindmap: " ++ e ∧
      "Error".data.isPrefixOf (generate_mindmap_with_claude (.raised e)).data = true) := by
  refine ⟨?_, ?_, ?_, ?_⟩
  · intro e extract
    refine ⟨rfl, ?_⟩
    show "Error".data.isPrefixOf ("Error scraping website: " ++ e).data = true
    rw [String.data_append,
      show "Error scraping website: ".data =
        "Error".data ++ " scraping website: ".data from rfl]
    exact prefix_of_append_mid _ _ _
  · intro resp extract h
    have heq : scrape_text (.ok resp) extract =
        "Failed to scrape website. Status code: " ++ toString resp.status_code := by
      show (if resp.status_code = 200 then _ else _) = _
      rw [if_neg h]
    refine ⟨heq, ?_⟩
    rw [heq, String.data_append,
      show "Failed to scrape website. Status code: ".data =
        "Failed".data ++ " to scrape website. Status code: ".data from rfl]
    exact prefix_of_append_mid _ _ _
  · intro resp extract e h200 hex
    have heq : scrape_text (.ok resp) extract = "Error scraping website: " ++ e := by
      show (if resp.status_code = 200 then _ else _) = _
      rw [if_pos h200, hex]
    refine ⟨heq, ?_⟩
    rw [heq, String.data_append,
      show "Error scraping website: ".data =
        "Error".data ++ " scraping website: ".data from rfl]
    exact prefix_of_append_mid _ _ _
  · intro e
    refine ⟨rfl, ?_⟩
    show "Error".data.isPrefixOf ("Error generating mindmap: " ++ e).data = true
    rw [String.data_append,
      show "Error generating mindmap: ".data =
        "Error".data ++ " generating mindmap: ".data from rfl]
    exact prefix_of_append_mid _ _ _

theorem c8_witness :
    (scrape_text (.ok ⟨404, "page"⟩) (fun _ => .ok "text") =
      "Failed to scrape website. Status code: " ++
        toString ((⟨404, "page"⟩ : HttpResp)).status_code) ∧
    (scrape_text (.ok ⟨200, "page"⟩) (fun _ => .raised "boom") =
      "Error scraping website: " ++ "boom") ∧
    (generate_mindmap_with_claude (.raised "down") =
      "Error generating mindmap: " ++ "down") :=
  ⟨(c8_failures_as_strings.2.1 ⟨404, "page"⟩ (fun _ => .ok "text") (by decide)).1,
   (c8_failures_as_strings.2.2.1 ⟨200, "page"⟩ (fun _ => .raised "boom") "boom"
     rfl rfl).1,
   (c8_failures_as_strings.2.2.2 "down").1⟩

end NeuroMapper
